import Mathlib

/-!
# Verification of the go-media-center storage / transformation pipeline

Shallow embedding of the Go sources of `go-media-center-example`:

* `internal/utils/utils.go` (`ParseIntOption`),
* the transformation module (`TransformationOptions`, `Validate`,
  `ApplyPreset`, `TransformImage`),
* `internal/storage/storage.go` (chunked multipart upload of the S3 and
  SeaweedFS backends),
* `internal/api/handlers/media.go` (`TransformMedia`, `ServeMediaFile`),
* `internal/api/handlers/batch.go` (`BulkURLUpload`, `processURLUpload`).

Network, database and image-codec effects are modelled by explicit
environment records: every call the Go code makes to such a collaborator
reads its outcome from the environment, and the Go control flow is
transcribed literally.
-/

namespace MediaCenter

/-! ## Go integer formatting and parsing primitives -/

/-- One decimal digit rendered as a character, as Go's `%d` verb does.
Only arguments below 10 ever arise. -/
def digitChar (d : Nat) : Char :=
  match d with
  | 0 => '0' | 1 => '1' | 2 => '2' | 3 => '3' | 4 => '4'
  | 5 => '5' | 6 => '6' | 7 => '7' | 8 => '8' | _ => '9'

/-- Little-endian digit characters of `n`, with enough fuel to exhaust
the number.  Helper for `decChars`. -/
def decCharsAux : Nat → Nat → List Char
  | 0, _ => []
  | fuel + 1, n => if n = 0 then [] else digitChar (n % 10) :: decCharsAux fuel (n / 10)

/-- Decimal representation of a natural number, most significant digit
first, as produced by Go's `fmt.Sprintf("%d", n)`. -/
def decChars (n : Nat) : List Char :=
  if n = 0 then ['0'] else (decCharsAux n n).reverse

/-- Go's `strings.HasPrefix`, on the character lists of the strings. -/
def strStartsWith (s pre : String) : Bool :=
  pre.data.isPrefixOf s.data

/-- Decimal representation of a Go `int` under the `%d` verb. -/
def goIntChars (i : Int) : List Char :=
  if i < 0 then '-' :: decChars i.natAbs else decChars i.toNat

/-- `fmt.Sprintf("%d", i)` as a `String`. -/
def goIntRepr (i : Int) : String := String.mk (goIntChars i)

/-- Value of a list of decimal digit characters, most significant first.
Helper for `goAtoi`. -/
def digitsVal (l : List Char) : Nat :=
  l.foldl (fun acc c => 10 * acc + (c.toNat - '0'.toNat)) 0

/-- Go's `strconv.Atoi`: an optional sign followed by a non-empty run of
decimal digits, rejecting anything else and values outside the 64-bit
`int` range. -/
def goAtoi (s : String) : Option Int :=
  let signed : List Char → Option Int := fun l =>
    match l with
    | [] => none
    | '+' :: rest =>
        if rest ≠ [] ∧ rest.all Char.isDigit then some (digitsVal rest) else none
    | '-' :: rest =>
        if rest ≠ [] ∧ rest.all Char.isDigit then some (-(digitsVal rest : Int)) else none
    | l =>
        if l.all Char.isDigit then some (digitsVal l) else none
  match signed s.data with
  | none => none
  | some v => if -(2 ^ 63) ≤ v ∧ v < 2 ^ 63 then some v else none

/-- `utils.ParseIntOption`: parse a query value, returning `0` when the
string is empty or `strconv.Atoi` fails. -/
def ParseIntOption (value : String) : Int :=
  if value = "" then 0
  else
    match goAtoi value with
    | none => 0
    | some num => num

/-! ## Transformation options (`TransformationOptions`) -/

/-- `utils.TransformationOptions`: the user-supplied transform spec.
Numeric fields are Go `int`s, enumeration fields are raw strings. -/
structure TransformationOptions where
  width : Int := 0
  height : Int := 0
  fit : String := ""
  crop : String := ""
  quality : Int := 0
  format : String := ""
  preset : String := ""
  fresh : Bool := false
  deriving Repr, DecidableEq

namespace TransformationOptions

/-- `TransformationOptions.IsEmpty`: true when no option is set. -/
def IsEmpty (t : TransformationOptions) : Bool :=
  t.width == 0 && t.height == 0 && t.fit == "" && t.crop == "" &&
    t.quality == 0 && t.format == "" && t.preset == "" && !t.fresh

/-- `TransformationOptions.Validate`: the sequential checks of the Go
method, surfacing the error of the first failing check. -/
def Validate (t : TransformationOptions) : Except String Unit :=
  if t.width < 0 ∨ t.height < 0 then
    .error "width and height must be non-negative"
  else
    let maxDimension : Int := 16384
    if t.width > maxDimension ∨ t.height > maxDimension then
      .error "maximum allowed dimension is 16384 pixels"
    else if t.fit ≠ "" ∧ t.fit ≠ "contain" ∧ t.fit ≠ "cover" ∧ t.fit ≠ "fill" then
      .error ("invalid fit mode: " ++ t.fit)
    else if t.crop ≠ "" ∧ t.crop ≠ "center" ∧ t.crop ≠ "top" ∧ t.crop ≠ "bottom" ∧
        t.crop ≠ "left" ∧ t.crop ≠ "right" then
      .error ("invalid crop position: " ++ t.crop)
    else if t.quality < 0 ∨ t.quality > 100 then
      .error "quality must be between 0 and 100"
    else if t.format ≠ "" ∧ t.format ≠ "jpeg" ∧ t.format ≠ "jpg" ∧ t.format ≠ "png" ∧
        t.format ≠ "webp" then
      .error ("unsupported format: " ++ t.format)
    else
      .ok ()

end TransformationOptions

/-- `utils.ApplyPreset`: overwrite width, height, fit and quality from the
named preset table; unknown names are an error.  The Go function mutates
the options in place; the model returns the updated record. -/
def ApplyPreset (options : TransformationOptions) (preset : String) :
    Except String TransformationOptions :=
  if preset = "thumbnail" then
    .ok { options with width := 150, height := 150, fit := "cover", quality := 80 }
  else if preset = "social" then
    .ok { options with width := 1200, height := 630, fit := "contain", quality := 85 }
  else if preset = "avatar" then
    .ok { options with width := 300, height := 300, fit := "cover", quality := 85 }
  else if preset = "banner" then
    .ok { options with width := 1920, height := 400, fit := "cover", quality := 90 }
  else
    .error ("unknown preset: " ++ preset)

/-! ## Transform engine (`utils.TransformImage`) -/

/-- `imaging.Anchor` values used by the crop step. -/
inductive GoAnchor
  | center | top | bottom | left | right
  deriving Repr, DecidableEq

/-- Abstract image codec and raster operations, standing for the Go
`image` and `imaging` libraries.  `B` is the byte type, `Img` the
in-memory raster type. -/
structure ImageOps (B Img : Type) where
  /-- `image.Decode`: bytes to raster plus detected format name. -/
  decode : List B → Option (Img × String)
  /-- `imaging.Clone`. -/
  clone : Img → Img
  /-- Raster width (`Bounds().Dx()`). -/
  dx : Img → Int
  /-- Raster height (`Bounds().Dy()`). -/
  dy : Img → Int
  /-- `imaging.Fit`. -/
  fit : Img → Int → Int → Img
  /-- `imaging.Fill` with center anchor. -/
  fill : Img → Int → Int → Img
  /-- `imaging.Resize`. -/
  resize : Img → Int → Int → Img
  /-- `imaging.CropAnchor`. -/
  cropAnchor : Img → Int → Int → GoAnchor → Img
  /-- `jpeg.Encode` at a quality. -/
  encodeJPEG : Img → Int → Except String (List B)
  /-- `png.Encode`. -/
  encodePNG : Img → Except String (List B)

/-- Outcome of `utils.TransformImage`: bytes, a returned error, or a Go
runtime panic (the code dereferences a nil raster on some paths). -/
inductive TIResult (B : Type)
  | ok (bytes : List B)
  | err (msg : String)
  | crash
  deriving Repr

/-- `utils.TransformImage` transcribed from the source.  The input reader
is modelled by the byte list it yields.  The aspect-ratio computation uses
integer division where Go truncates a `float64` quotient; no claim
depends on the rounding.  `transformed` starts as Go's nil `*image.NRGBA`
pointer, modelled by `none`; using it while `none` is a panic. -/
def TransformImage {B Img : Type} (ops : ImageOps B Img) (input : List B)
    (options : TransformationOptions) : TIResult B :=
  if options.width = 0 ∧ options.height = 0 ∧ options.fit = "" ∧
      options.crop = "" ∧ options.format = "" then
    .ok input
  else
    match ops.decode input with
    | none => .err "failed to decode image"
    | some (src, format) =>
      let origWidth := ops.dx src
      let origHeight := ops.dy src
      let img := ops.clone src
      let transformed : Option Img := none
      let transformed : Option Img :=
        if options.width > 0 ∨ options.height > 0 then
          let targetWidth := options.width
          let targetHeight := options.height
          let targetWidth :=
            if targetWidth = 0 then origWidth * targetHeight / origHeight else targetWidth
          let targetHeight :=
            if options.width ≠ 0 ∧ targetHeight = 0 then
              origHeight * targetWidth / origWidth
            else targetHeight
          some <|
            if options.fit = "contain" then ops.fit img targetWidth targetHeight
            else if options.fit = "cover" then ops.fill img targetWidth targetHeight
            else if options.fit = "fill" then ops.resize img targetWidth targetHeight
            else ops.fit img targetWidth targetHeight
        else transformed
      let afterCrop : Option (Option Img) :=
        if options.crop ≠ "" then
          match transformed with
          | none => none
          | some t =>
            let currentWidth := ops.dx t
            let currentHeight := ops.dy t
            let cropWidth := options.width
            let cropHeight := options.height
            let cropWidth :=
              if cropWidth = 0 ∨ cropWidth > currentWidth then currentWidth else cropWidth
            let cropHeight :=
              if cropHeight = 0 ∨ cropHeight > currentHeight then currentHeight else cropHeight
            let anchor :=
              if options.crop = "top" then GoAnchor.top
              else if options.crop = "bottom" then GoAnchor.bottom
              else if options.crop = "left" then GoAnchor.left
              else if options.crop = "right" then GoAnchor.right
              else GoAnchor.center
            some (some (ops.cropAnchor t cropWidth cropHeight anchor))
        else some transformed
      match afterCrop with
      | none => .crash
      | some transformed =>
        let outputFormat := if options.format = "" then format else options.format
        let encoded : Option (Except String (List B)) :=
          match transformed with
          | none => none
          | some t =>
            if outputFormat = "jpeg" ∨ outputFormat = "jpg" then
              let quality := if options.quality = 0 then 85 else options.quality
              some (ops.encodeJPEG t quality)
            else if outputFormat = "png" then some (ops.encodePNG t)
            else if outputFormat = "webp" then some (.error "webp sentinel")
            else some (ops.encodeJPEG t 85)
        if outputFormat = "webp" then .err "webp format not yet supported"
        else
          match encoded with
          | none => .crash
          | some (.error e) => .err ("failed to encode transformed image: " ++ e)
          | some (.ok bytes) => .ok bytes

/-! ## Cache key (`handlers.TransformMedia`) -/

/-- The cache key written by `TransformMedia`:
`fmt.Sprintf("%s_w%d_h%d_f%s_c%s_q%d_%s", id, w, h, fit, crop, q, format)`. -/
def mkCacheKey (id : String) (o : TransformationOptions) : String :=
  id ++ "_w" ++ goIntRepr o.width ++ "_h" ++ goIntRepr o.height ++
    "_f" ++ o.fit ++ "_c" ++ o.crop ++ "_q" ++ goIntRepr o.quality ++ "_" ++ o.format

/-! ## Storage backends (`internal/storage/storage.go`) -/

/-- `fmt.Sprintf("%d", n)` for a natural count. -/
def goNatRepr (n : Nat) : String := String.mk (decChars n)

/-- `DefaultChunkSize`: 5MB, the fixed chunk size of multipart uploads. -/
def DefaultChunkSize : Nat := 5 * 1024 * 1024

/-- `MultipartThreshold`: 10MB, above which `Upload` delegates to
`MultipartUpload`. -/
def MultipartThreshold : Nat := 10 * 1024 * 1024

/-- `filepath.Base`: the last path component. -/
def goBase (s : String) : String := (s.splitOn "/").getLastD ""

/-- Successive reads of up to `k` bytes from a stream holding `l`,
stopping at the first empty read: the chunking performed by both
`MultipartUpload` loops. -/
def chunksOf {α : Type} (k : Nat) (l : List α) : List (List α) :=
  if _h : k = 0 ∨ l.isEmpty then [] else l.take k :: chunksOf k (l.drop k)
termination_by l.length
decreasing_by
  rcases Nat.eq_zero_or_pos k with hk | hk
  · exact absurd (Or.inl hk) _h
  · have hne : ¬ l.isEmpty := fun h => _h (Or.inr h)
    have : 0 < l.length := by
      cases l with
      | nil => simp at hne
      | cons a t => simp
    simp only [List.length_drop]
    omega

/-- A `types.CompletedPart`: part number plus the backend's integrity
token (ETag) for that part.  `E` is the abstract ETag type. -/
structure CompletedPart (E : Type) where
  partNumber : Nat
  etag : E
  deriving Repr, DecidableEq

/-- Calls issued to the S3 client by the upload paths. -/
inductive S3Event (B E : Type)
  | putObject (key : String) (data : List B)
  | createMultipart (key : String)
  | uploadPart (key : String) (partNumber : Nat) (data : List B)
  | completeMultipart (key : String) (parts : List (CompletedPart E))
  deriving Repr

/-- The part-upload loop of `S3Storage.MultipartUpload`: read a chunk,
upload it under the current part number, record the returned ETag, and
increment.  `etag` abstracts the backend's per-part token. -/
def s3Loop {B E : Type} (etag : Nat → List B → E) (key : String)
    (content : List B) (partNumber : Nat) :
    List (CompletedPart E) × List (S3Event B E) :=
  if _h : content.isEmpty then ([], [])
  else
    let data := content.take DefaultChunkSize
    let rest := s3Loop etag key (content.drop DefaultChunkSize) (partNumber + 1)
    (⟨partNumber, etag partNumber data⟩ :: rest.1,
      .uploadPart key partNumber data :: rest.2)
termination_by content.length
decreasing_by
  have : 0 < content.length := by
    cases content with
    | nil => simp at _h
    | cons a t => simp
  simp only [List.length_drop, DefaultChunkSize]
  omega

/-- `S3Storage.MultipartUpload`: create the multipart upload, run the
part loop from part number 1, then issue the single completion call
listing the accumulated parts. -/
def S3MultipartUpload {B E : Type} (etag : Nat → List B → E)
    (filename : String) (content : List B) :
    String × List (S3Event B E) :=
  let key := "uploads/" ++ goBase filename
  let r := s3Loop etag key content 1
  (key, .createMultipart key :: r.2 ++ [.completeMultipart key r.1])

/-- `S3Storage.Upload`: single `PutObject` below the threshold, multipart
above it. -/
def S3Upload {B E : Type} (etag : Nat → List B → E)
    (filename : String) (content : List B) :
    String × List (S3Event B E) :=
  if content.length > MultipartThreshold then
    S3MultipartUpload etag filename content
  else
    let key := "uploads/" ++ goBase filename
    (key, [.putObject key content])

/-- Calls issued to the SeaweedFS client.  File ids are abstracted by the
allocation order: the `i`-th uploaded file gets id `i`. -/
inductive SWEvent (B : Type)
  | upload (fid : Nat) (name : String) (data : List B)
  | deleteFile (fid : Nat)
  deriving Repr, DecidableEq

/-- The chunk loop of `SeaweedFSStorage.MultipartUpload`: each chunk is
uploaded as an independent file named `<filename>.part<len(chunks)>`, and
its file id is appended to `chunks`. -/
def swLoop {B : Type} (filename : String) (content : List B) (idx : Nat) :
    List Nat × List (SWEvent B) :=
  if _h : content.isEmpty then ([], [])
  else
    let data := content.take DefaultChunkSize
    let name := filename ++ ".part" ++ goNatRepr idx
    let rest := swLoop filename (content.drop DefaultChunkSize) (idx + 1)
    (idx :: rest.1, .upload idx name data :: rest.2)
termination_by content.length
decreasing_by
  have : 0 < content.length := by
    cases content with
    | nil => simp at _h
    | cons a t => simp
  simp only [List.length_drop, DefaultChunkSize]
  omega

/-- `SeaweedFSStorage.MultipartUpload`: upload every chunk as its own
file and return the first chunk's file id; no assembly call exists. -/
def SeaweedFSMultipartUpload {B : Type} (filename : String)
    (content : List B) : Except String Nat × List (SWEvent B) :=
  let r := swLoop filename content 0
  if r.1 = [] then (.error "no chunks uploaded", r.2)
  else (.ok (r.1.headD 0), r.2)

/-- `SeaweedFSStorage.Upload`: single upload below the threshold,
chunked above it. -/
def SeaweedFSUpload {B : Type} (filename : String) (content : List B) :
    Except String Nat × List (SWEvent B) :=
  if content.length > MultipartThreshold then
    SeaweedFSMultipartUpload filename content
  else
    (.ok 0, [.upload 0 filename content])

/-- Contents of the SeaweedFS backend after a trace of client calls,
looked up by file id. -/
def swStore {B : Type} (evs : List (SWEvent B)) (fid : Nat) : Option (List B) :=
  match evs with
  | [] => none
  | .upload f _ data :: rest => if f = fid then some data else swStore rest fid
  | .deleteFile f :: rest => if f = fid then none else swStore rest fid

/-! ## Media handlers (`internal/api/handlers/media.go`) -/

/-- The columns of a `models.Media` row the handlers read. -/
structure Media where
  id : String
  userID : Nat
  mimeType : String
  path : String
  deriving Repr, DecidableEq

/-- Outcome of `models.GetMediaByID`. -/
inductive MediaLookup
  | found (media : Media)
  | notFound
  | dbError
  deriving Repr, DecidableEq

/-- The raw query parameters a transform request carries. -/
structure Query where
  width : String := ""
  height : String := ""
  fit : String := ""
  crop : String := ""
  quality : String := ""
  format : String := ""
  preset : String := ""
  fresh : String := ""
  deriving Repr, DecidableEq

/-- Building `TransformationOptions` from query parameters, as both
`TransformMedia` and `ServeMediaFile` do. -/
def optionsOfQuery (q : Query) : TransformationOptions :=
  { width := ParseIntOption q.width
    height := ParseIntOption q.height
    fit := q.fit
    crop := q.crop
    quality := ParseIntOption q.quality
    format := q.format
    preset := q.preset
    fresh := q.fresh == "true" }

/-- Storage and transform calls a handler issues, in order. -/
inductive CallEvent (B : Type)
  | storageDownload (key : String)
  | storageFetch (url : String)
  | transformCall (options : TransformationOptions)
  | storageUpload (key : String)
  deriving Repr, DecidableEq

/-- Environment of `TransformMedia`: outcomes of the database lookup and
of each storage-provider call. -/
structure TMEnv (B : Type) where
  getMedia : MediaLookup
  hasProvider : Bool
  download : String → Except String (List B)
  uploadBytes : List B → String → Except String String
  readCachedErr : Bool

/-- A handler response: a JSON error, served bytes (with the `X-Cache`
header value and content type), or a Go panic. -/
inductive HResponse (B : Type)
  | err (status : Nat) (msg : String)
  | serve (status : Nat) (xCache : String) (contentType : String) (body : List B)
  | crashed
  deriving Repr, DecidableEq

/-- `handlers.TransformMedia` transcribed from the source; returns the
response together with the trace of storage/transform calls made. -/
def TransformMediaH {B Img : Type} (ops : ImageOps B Img) (env : TMEnv B)
    (mediaID : String) (authUser : Option Nat) (q : Query) :
    HResponse B × List (CallEvent B) :=
  if mediaID = "" then (.err 400 "Media ID is required", [])
  else
    match authUser with
    | none => (.err 401 "User not authenticated", [])
    | some userID =>
      match env.getMedia with
      | .notFound => (.err 404 "Media not found", [])
      | .dbError => (.err 500 "Failed to retrieve media", [])
      | .found media =>
        if media.userID ≠ userID then (.err 403 "Access denied", [])
        else if ¬ strStartsWith media.mimeType "image/" then
          (.err 400 "Media is not an image", [])
        else
          let options := optionsOfQuery q
          match options.Validate with
          | .error _ => (.err 400 "Invalid transformation parameters", [])
          | .ok _ =>
            let applied :=
              if options.preset ≠ "" then ApplyPreset options options.preset
              else .ok options
            match applied with
            | .error _ => (.err 400 "Invalid preset", [])
            | .ok options =>
              if ¬ env.hasProvider then
                (.err 500 "Storage provider not initialized", [])
              else
                match env.download media.path with
                | .error _ =>
                    (.err 500 "Failed to read original file",
                      [.storageDownload media.path])
                | .ok reader =>
                  let cacheKey := mkCacheKey media.id options
                  let evs : List (CallEvent B) := [.storageDownload media.path]
                  let cached : Option (List B) × List (CallEvent B) :=
                    if options.fresh then (none, evs)
                    else
                      match env.download cacheKey with
                      | .ok data => (some data, evs ++ [.storageDownload cacheKey])
                      | .error _ => (none, evs ++ [.storageDownload cacheKey])
                  match cached with
                  | (some data, evs) =>
                      if env.readCachedErr then
                        (.err 500 "Failed to read cached file", evs)
                      else
                        (.serve 200 "HIT" media.mimeType data, evs)
                  | (none, evs) =>
                    let evs := evs ++ [CallEvent.transformCall options]
                    match TransformImage ops reader options with
                    | .err _ => (.err 500 "Failed to transform image", evs)
                    | .crash => (.crashed, evs)
                    | .ok transformed =>
                      let evs := evs ++ [CallEvent.storageUpload cacheKey]
                      match env.uploadBytes transformed cacheKey with
                      | .error _ =>
                          (.err 500 "Failed to save transformed image", evs)
                      | .ok _ =>
                        let contentType :=
                          if options.format ≠ "" then
                            if options.format = "png" then "image/png"
                            else if options.format = "webp" then "image/webp"
                            else "image/jpeg"
                          else media.mimeType
                        (.serve 200 "MISS" contentType transformed, evs)

/-- Environment of `ServeMediaFile`: the database lookup by filename,
storage initialization, and the internal-URL fetch. -/
structure SMEnv (B : Type) where
  findMedia : Option Media
  storageOK : Bool
  internalURL : String → String
  fetch : String → Except String (List B)

/-- `handlers.ServeMediaFile` transcribed from the source: it parses the
transform options from the query and, for images with a non-empty spec,
calls `TransformImage` directly — it never calls `Validate`. -/
def ServeMediaFileH {B Img : Type} (ops : ImageOps B Img) (env : SMEnv B)
    (_filename : String) (q : Query) : HResponse B × List (CallEvent B) :=
  let transformOptions := optionsOfQuery q
  match env.findMedia with
  | none => (.err 404 "Media not found", [])
  | some media =>
    if ¬ env.storageOK then (.err 500 "Failed to initialize storage", [])
    else
      let url := env.internalURL media.path
      match env.fetch url with
      | .error _ => (.err 500 "Failed to fetch file", [.storageFetch url])
      | .ok body =>
        let evs : List (CallEvent B) := [.storageFetch url]
        let contentType := media.mimeType
        if strStartsWith contentType "image/" ∧ ¬ transformOptions.IsEmpty then
          let evs := evs ++ [CallEvent.transformCall transformOptions]
          match TransformImage ops body transformOptions with
          | .err _ => (.err 500 "Failed to transform image", evs)
          | .crash => (.crashed, evs)
          | .ok transformed =>
            let contentType :=
              if transformOptions.format = "png" then "image/png"
              else if transformOptions.format = "webp" then "image/webp"
              else "image/jpeg"
            (.serve 200 (if transformOptions.fresh then "no-store" else "long-lived")
              contentType transformed, evs)
        else
          (.serve 200 "" contentType body, evs)

/-! ## Bulk URL upload (`internal/api/handlers/batch.go`) -/

/-- `maxConcurrent` in `BulkURLUpload`. -/
def maxConcurrent : Nat := 5

/-- State of the fan-out in `BulkURLUpload`: `next` is the main
goroutine's loop index (it acquires the semaphore before spawning task
`next`), `running` the indices of spawned tasks that have not finished
(each holds one semaphore token), `results` the pre-sized result slice
where task `i` writes slot `i`. -/
structure BulkState (R : Type) where
  next : Nat
  running : List Nat
  results : List (Option R)
  deriving Repr, DecidableEq

/-- Initial state: loop at index 0, `results := make([]gin.H, N)`. -/
def bulkInit (R : Type) (n : Nat) : BulkState R :=
  ⟨0, [], List.replicate n none⟩

/-- Scheduler actions: the main goroutine acquires a token and spawns the
next task, or a running task completes and writes its slot. -/
inductive BulkAction
  | spawn
  | finish (i : Nat)
  deriving Repr, DecidableEq

/-- One scheduler step.  `spawn` is enabled while inputs remain and a
semaphore token is free (channel capacity `maxConcurrent`); `finish i` is
enabled for any running task and stores `proc` of its input at index
`i`, releasing the token. -/
def bulkStep {U R : Type} (inputs : List U) (proc : U → R)
    (s : BulkState R) : BulkAction → Option (BulkState R)
  | .spawn =>
      if s.next < inputs.length ∧ s.running.length < maxConcurrent then
        some ⟨s.next + 1, s.next :: s.running, s.results⟩
      else none
  | .finish i =>
      if i ∈ s.running then
        match inputs[i]? with
        | some u => some ⟨s.next, s.running.erase i, s.results.set i (some (proc u))⟩
        | none => none
      else none

/-- Run a schedule from a state; `none` when an action was not enabled. -/
def bulkRun {U R : Type} (inputs : List U) (proc : U → R)
    (s : BulkState R) : List BulkAction → Option (BulkState R)
  | [] => some s
  | a :: rest =>
      match bulkStep inputs proc s a with
      | some t => bulkRun inputs proc t rest
      | none => none

/-- The success count computed after `wg.Wait()`: a fold over the result
slice incrementing on `result["success"] == true`. -/
def successCount {R : Type} (isSucc : R → Bool) (results : List R) : Nat :=
  results.foldl (fun acc r => if isSucc r then acc + 1 else acc) 0

/-- Per-item result record built by `processURLUpload`.  `savedSize` is
the `Size` column of the `media` row created on success. -/
structure URLResult where
  url : String
  success : Bool
  errorMsg : Option String := none
  mediaID : Option String := none
  filename : Option String := none
  savedSize : Option Int := none
  deriving Repr, DecidableEq

/-- One entry of the `urls` request list. -/
structure URLReq where
  url : String
  filename : String := ""
  tags : List String := []
  deriving Repr, DecidableEq

/-- Environment of one `processURLUpload` call: outcomes of the remote
download, the storage upload, the internal re-fetch, the temp file, and
the database writes. -/
structure URLEnv (B : Type) where
  /-- `client.Get(urlReq.URL)` connection error, if any. -/
  downloadErr : Option String := none
  /-- HTTP status of the download. -/
  status : Nat := 200
  /-- Declared `Content-Length` of the download (may be `0` or `-1`). -/
  contentLength : Int := 0
  /-- Bytes the download yields. -/
  body : List B := []
  /-- Filename derived from the URL path / timestamp when none is given. -/
  derivedFilename : String := ""
  /-- `storageProvider.Upload` outcome: the file id, or an error. -/
  uploadResult : Except String String := .ok ""
  /-- Connection error of the internal re-fetch, if any. -/
  refetchErr : Option String := none
  /-- Bytes of the internal re-fetch of the just-uploaded object. -/
  refetchBody : List B := []
  /-- `os.CreateTemp` error, if any. -/
  tempFileErr : Option String := none
  /-- `io.Copy` error, if any. -/
  copyErr : Option String := none
  /-- Non-EOF error of the 512-byte sniff read, if any. -/
  sniffErr : Option String := none
  /-- Tag find-or-create succeeds. -/
  tagsOK : Bool := true
  /-- `media` row insert succeeds. -/
  dbOK : Bool := true
  /-- Tag association succeeds. -/
  tagsAssocOK : Bool := true

/-- `handlers.processURLUpload` transcribed from the source.  The
`fileSize` the code checks is the byte count `io.Copy` moved from the
re-fetch into the temp file. -/
def processURLUpload {B : Type} (env : URLEnv B) (req : URLReq)
    (maxUploadSize : Int) : URLResult :=
  let fail : String → URLResult := fun e =>
    { url := req.url, success := false, errorMsg := some e }
  match env.downloadErr with
  | some e => fail ("Failed to download: " ++ e)
  | none =>
    if env.status ≠ 200 then
      fail ("Failed to download: status code " ++ goNatRepr env.status)
    else if env.contentLength > 0 ∧ env.contentLength > maxUploadSize then
      fail "File too large"
    else
      let filename := if req.filename ≠ "" then req.filename else env.derivedFilename
      match env.uploadResult with
      | .error e => fail ("Failed to upload file: " ++ e)
      | .ok fileID =>
        match env.refetchErr with
        | some e => fail ("Failed to process file: " ++ e)
        | none =>
          match env.tempFileErr with
          | some e => fail ("Failed to process file: " ++ e)
          | none =>
            match env.copyErr with
            | some e => fail ("Failed to process file: " ++ e)
            | none =>
              let fileSize : Int := env.refetchBody.length
              if fileSize > maxUploadSize then fail "File too large"
              else
                match env.sniffErr with
                | some e => fail ("Failed to process file: " ++ e)
                | none =>
                  if req.tags ≠ [] ∧ ¬ env.tagsOK then fail "Failed to process tags"
                  else if ¬ env.dbOK then fail "Failed to save media metadata"
                  else if req.tags ≠ [] ∧ ¬ env.tagsAssocOK then
                    fail "Failed to associate tags"
                  else
                    { url := req.url, success := true, mediaID := some fileID,
                      filename := some filename, savedSize := some fileSize }

/-! ## Shared concrete instances for witnesses -/

/-- A degenerate codec over `Nat` bytes and a unit raster, used to
instantiate the abstract `ImageOps` at concrete inputs. -/
def unitOps : ImageOps Nat Unit where
  decode := fun _ => some ((), "jpeg")
  clone := id
  dx := fun _ => 1
  dy := fun _ => 1
  fit := fun i _ _ => i
  fill := fun i _ _ => i
  resize := fun i _ _ => i
  cropAnchor := fun i _ _ _ => i
  encodeJPEG := fun _ _ => .ok [0]
  encodePNG := fun _ => .ok [0]

/-- Whether an S3 client call is the multipart completion call. -/
def isCompleteEvent {B E : Type} : S3Event B E → Bool
  | .completeMultipart _ _ => true
  | _ => false

/-- Concrete `TransformMedia` environment in which the media row exists,
the source object downloads fine, the cache lookup misses, and only the
cache write (`UploadBytes`) fails. -/
def cacheWriteFailEnv : TMEnv Nat where
  getMedia := .found ⟨"m1", 7, "image/jpeg", "orig"⟩
  hasProvider := true
  download := fun key => if key = "orig" then .ok [1, 2, 3] else .error "not found"
  uploadBytes := fun _ _ => .error "backend down"
  readCachedErr := false

/-- Concrete `ServeMediaFile` environment in which the media row exists
and the internal fetch succeeds. -/
def serveEnv : SMEnv Nat where
  findMedia := some ⟨"m1", 7, "image/jpeg", "orig"⟩
  storageOK := true
  internalURL := fun p => "http://internal/" ++ p
  fetch := fun _ => .ok [9]

/-- Invariant of the `BulkURLUpload` fan-out: the semaphore bounds the
in-flight tasks, spawned indices are below the loop index and distinct,
the result slice keeps its pre-allocated length, finished slots hold
their item's result, and unspawned or running slots are still empty. -/
def BulkInv {U R : Type} (inputs : List U) (proc : U → R)
    (s : BulkState R) : Prop :=
  s.running.length ≤ maxConcurrent ∧
  s.next ≤ inputs.length ∧
  (∀ i ∈ s.running, i < s.next) ∧
  s.running.Nodup ∧
  s.results.length = inputs.length ∧
  (∀ i, i < s.next → i ∉ s.running →
    s.results[i]? = (inputs[i]?).map (fun u => some (proc u))) ∧
  (∀ i, i < inputs.length → (s.next ≤ i ∨ i ∈ s.running) →
    s.results[i]? = some none)

/-! ## C10: malformed numeric options parse to zero -/

/-- C10: for every query-parameter string that is empty or that
`strconv.Atoi` rejects, `ParseIntOption` returns `0`, so a malformed
width, height or quality parameter is silently treated as an unset field
and parsing never fails. -/
theorem parseIntOption_malformed_isZero (value : String)
    (h : value = "" ∨ goAtoi value = none) : ParseIntOption value = 0 := by
  rcases h with h | h
  · simp [ParseIntOption, h]
  · by_cases hv : value = ""
    · simp [ParseIntOption, hv]
    · simp [ParseIntOption, hv, h]

/-- Witness for C10 at the spec's example `width=abc`. -/
theorem parseIntOption_malformed_isZero_witness :
    goAtoi "abc" = none ∧ ParseIntOption "abc" = 0 :=
  ⟨by decide, parseIntOption_malformed_isZero "abc" (Or.inr (by decide))⟩

/-! ## C8: pass-through when no directive is set -/

/-- C8: for every input byte sequence and every spec with no width, no
height, no fit, no crop and no output format (quality and freshness may
be set), `TransformImage` returns the source bytes unchanged, for every
codec — so no decode or re-encode takes place. -/
theorem transformImage_passthrough {B Img : Type} (ops : ImageOps B Img)
    (input : List B) (o : TransformationOptions)
    (hw : o.width = 0) (hh : o.height = 0) (hf : o.fit = "")
    (hc : o.crop = "") (hm : o.format = "") :
    TransformImage ops input o = .ok input := by
  simp [TransformImage, hw, hh, hf, hc, hm]

/-- Witness for C8: quality and freshness set, bytes untouched. -/
theorem transformImage_passthrough_witness :
    TransformImage unitOps [3, 1, 4]
      { quality := 70, fresh := true } = .ok [3, 1, 4] :=
  transformImage_passthrough unitOps [3, 1, 4]
    { quality := 70, fresh := true } rfl rfl rfl rfl rfl

/-! ## C6: validation reports only the first violated constraint -/

/-- Counterexample for C6: a spec violating three constraints (negative
width, quality 150, fit "diagonal") yields exactly the same single-line
error as a spec violating only the width constraint, so `Validate` does
not enumerate every violated constraint. -/
theorem validate_not_enumerating_cex :
    TransformationOptions.Validate
        { width := -5, fit := "diagonal", quality := 150 } =
      .error "width and height must be non-negative" ∧
    TransformationOptions.Validate { width := -5 } =
      .error "width and height must be non-negative" := by
  constructor <;> rfl

set_option maxHeartbeats 1000000 in
/-- C6 amended: for every spec, `Validate` returns the error of exactly
the first violated constraint in source check order — dimension sign,
maximum dimension, fit enumeration, crop enumeration, quality range,
format enumeration — never an enumeration of all violations; when no
constraint is violated it returns ok. -/
theorem validate_first_violation_only (o : TransformationOptions) :
    (o.width < 0 ∨ o.height < 0 →
      o.Validate = .error "width and height must be non-negative") ∧
    (¬ (o.width < 0 ∨ o.height < 0) →
      (o.width > (16384 : Int) ∨ o.height > (16384 : Int)) →
      o.Validate = .error "maximum allowed dimension is 16384 pixels") ∧
    (¬ (o.width < 0 ∨ o.height < 0) →
      ¬ (o.width > (16384 : Int) ∨ o.height > (16384 : Int)) →
      (o.fit ≠ "" ∧ o.fit ≠ "contain" ∧ o.fit ≠ "cover" ∧ o.fit ≠ "fill") →
      o.Validate = .error ("invalid fit mode: " ++ o.fit)) ∧
    (¬ (o.width < 0 ∨ o.height < 0) →
      ¬ (o.width > (16384 : Int) ∨ o.height > (16384 : Int)) →
      ¬ (o.fit ≠ "" ∧ o.fit ≠ "contain" ∧ o.fit ≠ "cover" ∧ o.fit ≠ "fill") →
      (o.crop ≠ "" ∧ o.crop ≠ "center" ∧ o.crop ≠ "top" ∧ o.crop ≠ "bottom" ∧
        o.crop ≠ "left" ∧ o.crop ≠ "right") →
      o.Validate = .error ("invalid crop position: " ++ o.crop)) ∧
    (¬ (o.width < 0 ∨ o.height < 0) →
      ¬ (o.width > (16384 : Int) ∨ o.height > (16384 : Int)) →
      ¬ (o.fit ≠ "" ∧ o.fit ≠ "contain" ∧ o.fit ≠ "cover" ∧ o.fit ≠ "fill") →
      ¬ (o.crop ≠ "" ∧ o.crop ≠ "center" ∧ o.crop ≠ "top" ∧ o.crop ≠ "bottom" ∧
        o.crop ≠ "left" ∧ o.crop ≠ "right") →
      (o.quality < 0 ∨ o.quality > 100) →
      o.Validate = .error "quality must be between 0 and 100") ∧
    (¬ (o.width < 0 ∨ o.height < 0) →
      ¬ (o.width > (16384 : Int) ∨ o.height > (16384 : Int)) →
      ¬ (o.fit ≠ "" ∧ o.fit ≠ "contain" ∧ o.fit ≠ "cover" ∧ o.fit ≠ "fill") →
      ¬ (o.crop ≠ "" ∧ o.crop ≠ "center" ∧ o.crop ≠ "top" ∧ o.crop ≠ "bottom" ∧
        o.crop ≠ "left" ∧ o.crop ≠ "right") →
      ¬ (o.quality < 0 ∨ o.quality > 100) →
      (o.format ≠ "" ∧ o.format ≠ "jpeg" ∧ o.format ≠ "jpg" ∧ o.format ≠ "png" ∧
        o.format ≠ "webp") →
      o.Validate = .error ("unsupported format: " ++ o.format)) ∧
    (¬ (o.width < 0 ∨ o.height < 0) →
      ¬ (o.width > (16384 : Int) ∨ o.height > (16384 : Int)) →
      ¬ (o.fit ≠ "" ∧ o.fit ≠ "contain" ∧ o.fit ≠ "cover" ∧ o.fit ≠ "fill") →
      ¬ (o.crop ≠ "" ∧ o.crop ≠ "center" ∧ o.crop ≠ "top" ∧ o.crop ≠ "bottom" ∧
        o.crop ≠ "left" ∧ o.crop ≠ "right") →
      ¬ (o.quality < 0 ∨ o.quality > 100) →
      ¬ (o.format ≠ "" ∧ o.format ≠ "jpeg" ∧ o.format ≠ "jpg" ∧ o.format ≠ "png" ∧
        o.format ≠ "webp") →
      o.Validate = .ok ()) := by
  refine ⟨fun c1 => ?_, fun c1 c2 => ?_, fun c1 c2 c3 => ?_,
    fun c1 c2 c3 c4 => ?_, fun c1 c2 c3 c4 c5 => ?_,
    fun c1 c2 c3 c4 c5 c6 => ?_, fun c1 c2 c3 c4 c5 c6 => ?_⟩
  · simp [TransformationOptions.Validate, c1]
  · simp [TransformationOptions.Validate, c1, c2]
  · simp [TransformationOptions.Validate, c1, c2, c3.1, c3.2.1, c3.2.2.1,
      c3.2.2.2]
  · simp [TransformationOptions.Validate, c1, c2, c3, c4.1, c4.2.1, c4.2.2.1,
      c4.2.2.2.1, c4.2.2.2.2.1, c4.2.2.2.2.2]
  · simp [TransformationOptions.Validate, c1, c2, c3, c4, c5]
  · simp [TransformationOptions.Validate, c1, c2, c3, c4, c5, c6.1, c6.2.1,
      c6.2.2.1, c6.2.2.2.1, c6.2.2.2.2]
  · simp [TransformationOptions.Validate, c1, c2, c3, c4, c5, c6]

/-- Witness for the amended C6: with valid dimensions, `fit=diagonal`
together with `quality=150` yields the fit error alone, and `quality=150`
alone yields the quality error. -/
theorem validate_first_violation_only_witness :
    TransformationOptions.Validate { fit := "diagonal", quality := 150 } =
      .error ("invalid fit mode: " ++ "diagonal") ∧
    TransformationOptions.Validate { quality := 150 } =
      .error "quality must be between 0 and 100" :=
  ⟨(validate_first_violation_only
      { fit := "diagonal", quality := 150 }).2.2.1
      (by decide) (by decide) (by decide),
    (validate_first_violation_only { quality := 150 }).2.2.2.2.1
      (by decide) (by decide) (by decide) (by decide) (by decide)⟩

/-! ## C4: preset values overwrite explicit fields -/

/-- Counterexample for C4: the caller explicitly sets `width=999` and
`quality=10` together with `preset=thumbnail`, and `ApplyPreset` replaces
both with the preset's values — explicit fields do not take precedence. -/
theorem applyPreset_overrides_explicit_cex :
    ApplyPreset
        { width := 999, quality := 10, preset := "thumbnail" } "thumbnail" =
      .ok { width := 150, height := 150, fit := "cover", quality := 80,
            preset := "thumbnail" } ∧
    (999 : Int) ≠ 150 := by
  constructor
  · rfl
  · decide

/-- C4 amended: a named preset unconditionally overwrites width, height,
fit and quality with its table values, whatever the caller supplied;
crop, format, preset and fresh are left as given, and an unknown preset
name is an error. -/
theorem applyPreset_preset_wins (o : TransformationOptions) :
    ApplyPreset o "thumbnail" =
      .ok { o with width := 150, height := 150, fit := "cover", quality := 80 } ∧
    ApplyPreset o "social" =
      .ok { o with width := 1200, height := 630, fit := "contain", quality := 85 } ∧
    ApplyPreset o "avatar" =
      .ok { o with width := 300, height := 300, fit := "cover", quality := 85 } ∧
    ApplyPreset o "banner" =
      .ok { o with width := 1920, height := 400, fit := "cover", quality := 90 } ∧
    (∀ p, p ∉ (["thumbnail", "social", "avatar", "banner"] : List String) →
      ApplyPreset o p = .error ("unknown preset: " ++ p)) := by
  refine ⟨rfl, rfl, rfl, rfl, fun p hp => ?_⟩
  simp only [List.mem_cons, List.not_mem_nil, or_false, not_or] at hp
  obtain ⟨h1, h2, h3, h4⟩ := hp
  simp [ApplyPreset, h1, h2, h3, h4]

/-- Witness for the amended C4: caller width 999 is discarded, crop kept. -/
theorem applyPreset_preset_wins_witness :
    ApplyPreset { width := 999, crop := "top" } "thumbnail" =
      .ok { width := 150, height := 150, fit := "cover", quality := 80,
            crop := "top" } ∧
    ApplyPreset { width := 999, crop := "top" } "bogus" =
      .error "unknown preset: bogus" := by
  have h := applyPreset_preset_wins { width := 999, crop := "top" }
  exact ⟨h.1, h.2.2.2.2 "bogus" (by decide)⟩

/-! ## C9: zero-byte downloads -/

/-- Counterexample for C9: a download that connects with status 200 and
yields zero bytes sails through every check of `processURLUpload` and is
recorded as a success whose media row has size 0 — an empty success, not
a failure. -/
theorem processURLUpload_zeroByte_cex :
    processURLUpload ({ uploadResult := .ok "fid-1" } : URLEnv Nat)
        { url := "http://x/empty.bin", filename := "empty.bin" } 104857600 =
      { url := "http://x/empty.bin", success := true,
        mediaID := some "fid-1", filename := some "empty.bin",
        savedSize := some 0 } := by
  decide

/-- C9 amended: `processURLUpload` has no zero-length check — an item
whose download yields zero bytes, when the upload, re-fetch, temp-file
and database steps succeed, is recorded as a success with size 0. -/
theorem processURLUpload_zeroByte_success {B : Type} (env : URLEnv B)
    (req : URLReq) (maxUploadSize : Int)
    (h1 : env.downloadErr = none) (h2 : env.status = 200)
    (h3 : ¬ (env.contentLength > 0 ∧ env.contentLength > maxUploadSize))
    (h4 : ∃ fid, env.uploadResult = .ok fid)
    (h5 : env.refetchErr = none) (h6 : env.tempFileErr = none)
    (h7 : env.copyErr = none) (h8 : env.refetchBody = [])
    (h9 : 0 ≤ maxUploadSize) (h10 : env.sniffErr = none)
    (h11 : req.tags = []) (h12 : env.dbOK = true) :
    (processURLUpload env req maxUploadSize).success = true ∧
    (processURLUpload env req maxUploadSize).savedSize = some 0 := by
  obtain ⟨fid, hfid⟩ := h4
  have hns : ¬ maxUploadSize < 0 := not_lt.mpr h9
  simp [processURLUpload, h1, h2, h3, hfid, h5, h6, h7, h8, hns, h10, h11, h12]

/-- Witness for the amended C9 at the counterexample's environment. -/
theorem processURLUpload_zeroByte_success_witness :
    (processURLUpload ({ uploadResult := .ok "fid-1" } : URLEnv Nat)
        { url := "http://x/empty.bin", filename := "empty.bin" }
        104857600).success = true :=
  (processURLUpload_zeroByte_success _ _ _ rfl rfl (by decide) ⟨"fid-1", rfl⟩
    rfl rfl rfl rfl (by decide) rfl rfl rfl).1

/-! ## C2: cache-write failure on the transform path -/

/-- Counterexample for C2: with the source download succeeding, the cache
lookup missing, the transform succeeding, and only the cache write
(`UploadBytes`) failing, `TransformMedia` answers 500 "Failed to save
transformed image" — the computed bytes are not served. -/
theorem transformMedia_cacheWriteFailure_cex :
    TransformMediaH unitOps cacheWriteFailEnv "m1" (some 7) {} =
      (.err 500 "Failed to save transformed image",
        [.storageDownload "orig", .storageDownload "m1_w0_h0_f_c_q0_",
          .transformCall {}, .storageUpload "m1_w0_h0_f_c_q0_"]) ∧
    (HResponse.err 500 "Failed to save transformed image" : HResponse Nat) ≠
      .serve 200 "MISS" "image/jpeg" [1, 2, 3] := by
  exact ⟨rfl, by decide⟩

/-- C2 amended: whenever the request reaches the cache-write step (media
found and owned, an image, options valid, preset resolved, source
downloaded, cache missed or bypassed, transform succeeded) and
`UploadBytes` fails, `TransformMedia` fails the whole request with a 500
instead of serving the computed bytes. -/
theorem transformMedia_cacheWriteFailure_fails {B Img : Type}
    (ops : ImageOps B Img) (env : TMEnv B) (mediaID : String) (userID : Nat)
    (q : Query) (media : Media) (opts : TransformationOptions)
    (reader transformed : List B) (e : String)
    (hid : mediaID ≠ "")
    (hm : env.getMedia = .found media)
    (howner : media.userID = userID)
    (himg : strStartsWith media.mimeType "image/" = true)
    (hval : (optionsOfQuery q).Validate = .ok ())
    (hpre : (if (optionsOfQuery q).preset ≠ "" then
        ApplyPreset (optionsOfQuery q) (optionsOfQuery q).preset
      else .ok (optionsOfQuery q)) = .ok opts)
    (hprov : env.hasProvider = true)
    (hdl : env.download media.path = .ok reader)
    (hmiss : opts.fresh = true ∨
      ∃ msg, env.download (mkCacheKey media.id opts) = .error msg)
    (ht : TransformImage ops reader opts = .ok transformed)
    (hup : env.uploadBytes transformed (mkCacheKey media.id opts) = .error e) :
    (TransformMediaH ops env mediaID (some userID) q).1 =
      .err 500 "Failed to save transformed image" := by
  simp only [TransformMediaH, hid, if_neg (by simpa using hid), hm, howner,
    himg, hprov, hdl, hval, hpre]
  rcases hmiss with hfresh | ⟨msg, hmsg⟩
  · simp [hfresh, howner, himg, hprov, ht, hup]
  · cases hf : opts.fresh <;> simp [hf, hmsg, howner, himg, hprov, ht, hup]

/-- Witness for the amended C2 at the counterexample environment. -/
theorem transformMedia_cacheWriteFailure_witness :
    (TransformMediaH unitOps cacheWriteFailEnv "m1" (some 7) {}).1 =
      .err 500 "Failed to save transformed image" :=
  transformMedia_cacheWriteFailure_fails unitOps cacheWriteFailEnv "m1" 7 {}
    ⟨"m1", 7, "image/jpeg", "orig"⟩ (optionsOfQuery {}) [1, 2, 3] [1, 2, 3]
    "backend down" (by decide) rfl rfl rfl rfl rfl
    rfl rfl (Or.inr ⟨"not found", rfl⟩) rfl rfl

/-! ## C5: where validation happens -/

/-- Counterexample for C5: on the media file serving path an invalid spec
(`width=-5`) is never rejected — `ServeMediaFile` fetches the object from
storage and hands the invalid spec straight to `TransformImage` (which
then panics on the nil raster), with no `ValidationError` ever produced. -/
theorem serveMediaFile_no_validation_cex :
    ServeMediaFileH unitOps serveEnv "orig.jpg" { width := "-5" } =
      (.crashed, [.storageFetch "http://internal/orig",
        .transformCall { width := -5 }]) ∧
    TransformationOptions.Validate { width := -5 } =
      .error "width and height must be non-negative" :=
  ⟨rfl, rfl⟩

/-- C5 amended: only `TransformMedia` validates — there an invalid spec is
rejected with a 400 before any storage or transform call (empty call
trace); `ServeMediaFile` never validates and always passes the raw,
unvalidated spec to `TransformImage` after fetching from storage. -/
theorem validation_coverage :
    (∀ (B Img : Type) (ops : ImageOps B Img) (env : TMEnv B)
      (mediaID : String) (userID : Nat) (q : Query) (media : Media)
      (msg : String),
      mediaID ≠ "" → env.getMedia = .found media → media.userID = userID →
      strStartsWith media.mimeType "image/" = true →
      (optionsOfQuery q).Validate = .error msg →
      TransformMediaH ops env mediaID (some userID) q =
        (.err 400 "Invalid transformation parameters", [])) ∧
    (∀ (B Img : Type) (ops : ImageOps B Img) (env : SMEnv B)
      (filename : String) (q : Query) (media : Media) (body : List B),
      env.findMedia = some media → env.storageOK = true →
      env.fetch (env.internalURL media.path) = .ok body →
      strStartsWith media.mimeType "image/" = true →
      (optionsOfQuery q).IsEmpty = false →
      (ServeMediaFileH ops env filename q).2 =
        [.storageFetch (env.internalURL media.path),
          .transformCall (optionsOfQuery q)]) := by
  constructor
  · intro B Img ops env mediaID userID q media msg hid hm howner himg hval
    simp [TransformMediaH, if_neg (by simpa using hid), hm, howner, himg, hval]
  · intro B Img ops env filename q media body hm hsok hfetch himg hne
    simp only [ServeMediaFileH, hm, hsok, hfetch, himg, hne]
    rcases h : TransformImage ops body (optionsOfQuery q) <;> simp [h]

/-- Witness for the amended C5 at concrete environments and the invalid
spec `width=-5`. -/
theorem validation_coverage_witness :
    TransformMediaH unitOps cacheWriteFailEnv "m1" (some 7) { width := "-5" } =
      (.err 400 "Invalid transformation parameters", []) ∧
    (ServeMediaFileH unitOps serveEnv "orig.jpg" { width := "-5" }).2 =
      [.storageFetch "http://internal/orig", .transformCall { width := -5 }] := by
  constructor
  · exact validation_coverage.1 Nat Unit unitOps cacheWriteFailEnv "m1" 7
      { width := "-5" } ⟨"m1", 7, "image/jpeg", "orig"⟩
      "width and height must be non-negative" (by decide) rfl rfl rfl rfl
  · exact validation_coverage.2 Nat Unit unitOps serveEnv "orig.jpg"
      { width := "-5" } ⟨"m1", 7, "image/jpeg", "orig"⟩ [9] rfl rfl rfl rfl rfl

/-! ## C7: bounded, order-preserving fan-out -/

/-- The invariant holds in the initial state. -/
theorem bulkInv_init {U R : Type} (inputs : List U) (proc : U → R) :
    BulkInv inputs proc (bulkInit R inputs.length) := by
  unfold BulkInv bulkInit
  refine ⟨by simp, by simp, by simp, by simp, by simp, ?_, ?_⟩
  · intro i hi _
    simp at hi
  · intro i hi _
    simp [List.getElem?_replicate, hi]

/-- Every enabled scheduler step preserves the invariant. -/
theorem bulkStep_inv {U R : Type} {inputs : List U} {proc : U → R}
    {s t : BulkState R} {a : BulkAction}
    (hs : BulkInv inputs proc s) (h : bulkStep inputs proc s a = some t) :
    BulkInv inputs proc t := by
  obtain ⟨i1, i2, i3, i4, i5, i6, i7⟩ := hs
  cases a with
  | spawn =>
    simp only [bulkStep] at h
    split at h
    · rename_i hcond
      obtain ⟨hn, hr⟩ := hcond
      cases h
      unfold BulkInv
      dsimp only
      refine ⟨by simp; omega, by omega, ?_, ?_, i5, ?_, ?_⟩
      · intro i hi
        rcases List.mem_cons.mp hi with rfl | hi
        · omega
        · have := i3 i hi; omega
      · exact List.nodup_cons.mpr ⟨fun hc => absurd (i3 _ hc) (by omega), i4⟩
      · intro i hi hni
        have hne : i ≠ s.next := fun hc => hni (hc ▸ List.mem_cons_self _ _)
        exact i6 i (by omega) (fun hc => hni (List.mem_cons_of_mem _ hc))
      · intro i hi hcase
        rcases hcase with hle | hmem
        · exact i7 i hi (Or.inl (by omega))
        · rcases List.mem_cons.mp hmem with rfl | hmem
          · exact i7 _ hi (Or.inl le_rfl)
          · exact i7 _ hi (Or.inr hmem)
    · exact absurd h (by simp)
  | finish i =>
    simp only [bulkStep] at h
    split at h
    · rename_i hir
      split at h
      · rename_i u hu
        cases h
        have hilen : i < inputs.length := (List.getElem?_eq_some.mp hu).1
        have hinext : i < s.next := i3 i hir
        unfold BulkInv
        dsimp only
        refine ⟨le_trans (List.length_erase_le _ _) i1, i2, ?_, i4.erase i,
          by simpa using i5, ?_, ?_⟩
        · exact fun j hj => i3 j (List.mem_of_mem_erase hj)
        · intro j hj hnj
          by_cases hji : j = i
          · subst hji
            rw [List.getElem?_set_self (by omega), hu]
            rfl
          · rw [List.getElem?_set_ne (fun hc => hji hc.symm)]
            exact i6 j hj (fun hc => hnj ((List.mem_erase_of_ne hji).mpr hc))
        · intro j hj hcase
          by_cases hji : j = i
          · subst hji
            rcases hcase with hle | hmem
            · omega
            · exact absurd hmem (i4.not_mem_erase)
          · rw [List.getElem?_set_ne (fun hc => hji hc.symm)]
            refine i7 j hj ?_
            rcases hcase with hle | hmem
            · exact Or.inl hle
            · exact Or.inr (List.mem_of_mem_erase hmem)
      · exact absurd h (by simp)
    · exact absurd h (by simp)

/-- Running any schedule preserves the invariant. -/
theorem bulkRun_inv {U R : Type} {inputs : List U} {proc : U → R} :
    ∀ (acts : List BulkAction) (s t : BulkState R), BulkInv inputs proc s →
      bulkRun inputs proc s acts = some t → BulkInv inputs proc t := by
  intro acts
  induction acts with
  | nil => intro s t hs h; cases h; exact hs
  | cons a rest ih =>
    intro s t hs h
    simp only [bulkRun] at h
    split at h
    · rename_i s' hstep
      exact ih s' t (bulkStep_inv hs hstep) h
    · exact absurd h (by simp)

/-- `reduceOption` strips the `some` wrappers a map introduced. -/
theorem reduceOption_map_some {U R : Type} (f : U → R) (l : List U) :
    (l.map fun u => some (f u)).reduceOption = l.map f := by
  induction l with
  | nil => rfl
  | cons a t ih => simp [List.reduceOption_cons_of_some, ih]

/-- The success-count fold equals `countP`. -/
theorem successCount_eq_countP {R : Type} (isSucc : R → Bool) (l : List R) :
    successCount isSucc l = l.countP isSucc := by
  suffices h : ∀ acc, l.foldl (fun acc r => if isSucc r then acc + 1 else acc) acc =
      acc + l.countP isSucc by
    simpa using h 0
  induction l with
  | nil => simp
  | cons a t ih =>
    intro acc
    by_cases ha : isSucc a
    · simp [List.countP_cons, ha, ih]
      omega
    · simp [List.countP_cons, ha, ih]

/-- C7: in `BulkURLUpload`, every reachable scheduler state has at most
`maxConcurrent = 5` tasks in flight, and every complete execution (all
inputs spawned, none running) leaves the pre-sized result slice holding
exactly one result per input in input order — each slot the outcome of
its own item, independent of sibling outcomes and of the completion
order — with the reported success count equal to the number of
success-tagged records. -/
theorem bulkURLUpload_bounded_ordered {U R : Type} (inputs : List U)
    (proc : U → R) (isSucc : R → Bool) (acts : List BulkAction)
    (s : BulkState R)
    (h : bulkRun inputs proc (bulkInit R inputs.length) acts = some s) :
    s.running.length ≤ maxConcurrent ∧
    (s.next = inputs.length → s.running = [] →
      s.results = inputs.map (fun u => some (proc u)) ∧
      s.results.reduceOption = inputs.map proc ∧
      successCount isSucc s.results.reduceOption =
        s.results.reduceOption.countP isSucc) := by
  have hinv := bulkRun_inv acts _ s (bulkInv_init inputs proc) h
  obtain ⟨i1, i2, i3, i4, i5, i6, i7⟩ := hinv
  refine ⟨i1, fun hnext hrun => ?_⟩
  have hres : s.results = inputs.map fun u => some (proc u) := by
    apply List.ext_getElem?
    intro n
    rw [List.getElem?_map]
    by_cases hn : n < inputs.length
    · exact i6 n (by omega) (by simp [hrun])
    · rw [List.getElem?_eq_none (by omega), List.getElem?_eq_none (by omega)]
      rfl
  refine ⟨hres, ?_, successCount_eq_countP _ _⟩
  rw [hres, reduceOption_map_some]

/-- Witness for C7: two inputs, a schedule that finishes in spawn order;
the run reaches the final state with both slots filled in input order. -/
theorem bulkURLUpload_bounded_ordered_witness :
    (⟨2, [], [some true, some false]⟩ : BulkState Bool).running.length ≤
      maxConcurrent ∧
    ((2 : Nat) = ([10, 11] : List Nat).length → ([] : List Nat) = [] →
      ([some true, some false] : List (Option Bool)) =
          [10, 11].map (fun u => some (u == 10)) ∧
      ([some true, some false] : List (Option Bool)).reduceOption =
          [10, 11].map (fun u => u == 10) ∧
      successCount id ([some true, some false] : List (Option Bool)).reduceOption =
        ([some true, some false] : List (Option Bool)).reduceOption.countP id) :=
  bulkURLUpload_bounded_ordered [10, 11] (fun u => u == 10) id
    [.spawn, .spawn, .finish 0, .finish 1] ⟨2, [], [some true, some false]⟩
    (by decide)

/-! ## C1: chunked multipart upload -/

/-- Chunking stops immediately on an empty stream (or zero chunk size). -/
theorem chunksOf_eq_nil {α : Type} (k : Nat) (l : List α)
    (h : k = 0 ∨ l = []) : chunksOf k l = [] := by
  rw [chunksOf]
  rcases h with h | h <;> simp [h]

/-- One read of a non-empty stream takes the next `k` elements. -/
theorem chunksOf_cons {α : Type} (k : Nat) (l : List α) (hk : k ≠ 0)
    (hl : l ≠ []) : chunksOf k l = l.take k :: chunksOf k (l.drop k) := by
  rw [chunksOf]
  rw [dif_neg]
  simp [hk, hl]

/-- The uploaded chunks concatenate back to the whole payload. -/
theorem chunksOf_flatten {α : Type} (k : Nat) (hk : k ≠ 0) (l : List α) :
    (chunksOf k l).flatten = l := by
  induction l using chunksOf.induct k with
  | case1 l h =>
    rcases h with h | h
    · exact absurd h hk
    · rw [chunksOf_eq_nil k l (Or.inr (List.isEmpty_iff.mp h))]
      simp [List.isEmpty_iff.mp h]
  | case2 l h ih =>
    push_neg at h
    rw [chunksOf_cons k l h.1 (by simpa using h.2)]
    simp only [List.flatten_cons]
    rw [ih, List.take_append_drop]

/-- Every chunk is non-empty and no larger than the chunk size. -/
theorem chunksOf_mem_length {α : Type} (k : Nat) (l : List α) :
    ∀ c ∈ chunksOf k l, c ≠ [] ∧ c.length ≤ k := by
  induction l using chunksOf.induct k with
  | case1 l h =>
    rw [chunksOf, dif_pos h]
    simp
  | case2 l h ih =>
    push_neg at h
    obtain ⟨hk, hl⟩ := h
    rw [chunksOf_cons k l hk (by simpa using hl)]
    intro c hc
    rcases List.mem_cons.mp hc with rfl | hc
    · constructor
      · have hlne : l ≠ [] := by simpa using hl
        intro hcontra
        rcases List.take_eq_nil_iff.mp hcontra with h | h <;> simp_all
      · simp [List.length_take]
    · exact ih c hc

/-- Every chunk except the last one has exactly the chunk size: the
stream is cut into fixed-size chunks with only the tail shorter. -/
theorem chunksOf_dropLast_length {α : Type} (k : Nat) (l : List α) :
    ∀ c ∈ (chunksOf k l).dropLast, c.length = k := by
  induction l using chunksOf.induct k with
  | case1 l h =>
    rw [chunksOf, dif_pos h]
    simp
  | case2 l h ih =>
    push_neg at h
    obtain ⟨hk, hl⟩ := h
    have hlne : l ≠ [] := by simpa using hl
    rw [chunksOf_cons k l hk hlne]
    cases hrec : chunksOf k (l.drop k) with
    | nil => simp
    | cons c0 cs =>
      have hdrop : l.drop k ≠ [] := by
        intro hd
        rw [chunksOf_eq_nil k _ (Or.inr hd)] at hrec
        exact List.noConfusion hrec
      have hklen : k < l.length := by
        have := List.length_drop k l
        have hpos : 0 < (l.drop k).length := List.length_pos.mpr hdrop
        omega
      intro c hc
      rw [List.dropLast_cons₂] at hc
      rcases List.mem_cons.mp hc with rfl | hc
      · simp [List.length_take]
        omega
      · exact ih c (by rw [hrec]; exact hc)

/-- The S3 part loop uploads exactly the chunks, with consecutive part
numbers starting at the given one, and records one completed part (with
the backend's ETag) per chunk, in upload order. -/
theorem s3Loop_eq {B E : Type} (etag : Nat → List B → E) (key : String) :
    ∀ (content : List B) (pn : Nat),
      s3Loop etag key content pn =
        (((chunksOf DefaultChunkSize content).enumFrom pn).map
            fun p => (⟨p.1, etag p.1 p.2⟩ : CompletedPart E),
          ((chunksOf DefaultChunkSize content).enumFrom pn).map
            fun p => (.uploadPart key p.1 p.2 : S3Event B E)) := by
  intro content
  induction content using chunksOf.induct DefaultChunkSize with
  | case1 l h =>
    intro pn
    rcases h with h | h
    · exact absurd h (by decide)
    · rw [s3Loop, dif_pos h, chunksOf_eq_nil _ _ (Or.inr (List.isEmpty_iff.mp h))]
      simp
  | case2 l h ih =>
    intro pn
    push_neg at h
    obtain ⟨hk, hl⟩ := h
    rw [s3Loop, dif_neg (by simpa using hl)]
    rw [chunksOf_cons _ l hk (by simpa using hl), List.enumFrom_cons]
    simp only [List.map_cons]
    rw [ih (pn + 1)]

/-- The SeaweedFS chunk loop uploads each chunk as an independent file
named `<filename>.part<i>` with 0-based `i`, collecting the file ids in
order. -/
theorem swLoop_eq {B : Type} (filename : String) :
    ∀ (content : List B) (idx : Nat),
      swLoop filename content idx =
        (((chunksOf DefaultChunkSize content).enumFrom idx).map fun p => p.1,
          ((chunksOf DefaultChunkSize content).enumFrom idx).map
            fun p => (.upload p.1 (filename ++ ".part" ++ goNatRepr p.1) p.2 :
              SWEvent B)) := by
  intro content
  induction content using chunksOf.induct DefaultChunkSize with
  | case1 l h =>
    intro idx
    rcases h with h | h
    · exact absurd h (by decide)
    · rw [swLoop, dif_pos h, chunksOf_eq_nil _ _ (Or.inr (List.isEmpty_iff.mp h))]
      simp
  | case2 l h ih =>
    intro idx
    push_neg at h
    obtain ⟨hk, hl⟩ := h
    rw [swLoop, dif_neg (by simpa using hl)]
    rw [chunksOf_cons _ l hk (by simpa using hl), List.enumFrom_cons]
    simp only [List.map_cons]
    rw [ih (idx + 1)]

/-- Lookup in the store left by a run of chunk uploads with consecutive
file ids: file id `fid` holds the `(fid - n)`-th chunk. -/
theorem swStore_uploads {B : Type} (nm : Nat → String) :
    ∀ (cs : List (List B)) (n fid : Nat),
      swStore ((cs.enumFrom n).map fun p => SWEvent.upload p.1 (nm p.1) p.2) fid =
        if n ≤ fid then cs[fid - n]? else none := by
  intro cs
  induction cs with
  | nil =>
    intro n fid
    simp [swStore]
  | cons c cs ih =>
    intro n fid
    rw [List.enumFrom_cons]
    simp only [List.map_cons, swStore]
    by_cases hf : n = fid
    · subst hf
      simp
    · rw [if_neg hf, ih (n + 1) fid]
      by_cases hle : n + 1 ≤ fid
      · rw [if_pos hle, if_pos (by omega)]
        have hsub : fid - n = (fid - (n + 1)) + 1 := by omega
        rw [hsub, List.getElem?_cons_succ]
      · rw [if_neg hle, if_neg (by omega)]


/-- Above the threshold, the SeaweedFS upload returns the first chunk's
file id. -/
theorem seaweedFSUpload_fst {B : Type} (filename : String) (content : List B)
    (h : content.length > MultipartThreshold) :
    (SeaweedFSUpload filename content).1 = .ok 0 := by
  have hne : content ≠ [] := by
    intro hc
    rw [hc] at h
    simp [MultipartThreshold] at h
  have hchunks := chunksOf_cons DefaultChunkSize content (by decide) hne
  simp only [SeaweedFSUpload, if_pos h, SeaweedFSMultipartUpload]
  rw [swLoop_eq, hchunks, List.enumFrom_cons, List.map_cons]
  simp

/-- Above the threshold, the SeaweedFS store holds chunk `fid` under
file id `fid`; in particular the returned id 0 maps to the first chunk
only. -/
theorem seaweedFSUpload_store {B : Type} (filename : String) (content : List B)
    (h : content.length > MultipartThreshold) (fid : Nat) :
    swStore (SeaweedFSUpload filename content).2 fid =
      (chunksOf DefaultChunkSize content)[fid]? := by
  simp only [SeaweedFSUpload, if_pos h, SeaweedFSMultipartUpload]
  rw [swLoop_eq]
  split
  all_goals
    dsimp only
    rw [swStore_uploads (fun i => filename ++ ".part" ++ goNatRepr i)]
    simp

/-- Counterexample for C1: for a 10MB+1 payload (above the threshold),
the SeaweedFS backend returns the first chunk's file id and the object
retrievable under that id is only the first 5MB chunk, not the assembled
payload — no completion call assembles the parts, so the claim fails for
the SeaweedFS backend. -/
theorem multipart_both_backends_cex :
    (List.replicate 10485761 true).length > MultipartThreshold ∧
    (SeaweedFSUpload "file.bin" (List.replicate 10485761 true)).1 = .ok 0 ∧
    swStore (SeaweedFSUpload "file.bin" (List.replicate 10485761 true)).2 0 =
      some (List.replicate 5242880 true) ∧
    List.replicate 5242880 true ≠ List.replicate 10485761 true := by
  have hlen : (List.replicate 10485761 true).length = 10485761 :=
    List.length_replicate _ _
  have hgt : (List.replicate 10485761 true).length > MultipartThreshold := by
    rw [hlen]
    norm_num [MultipartThreshold]
  have hne : (List.replicate 10485761 true) ≠ [] := by
    intro h
    rw [h] at hlen
    simp at hlen
  have hchunks : chunksOf DefaultChunkSize (List.replicate 10485761 true) =
      (List.replicate 10485761 true).take DefaultChunkSize ::
        chunksOf DefaultChunkSize
          ((List.replicate 10485761 true).drop DefaultChunkSize) :=
    chunksOf_cons _ _ (by decide) hne
  have htake : (List.replicate 10485761 true).take DefaultChunkSize =
      List.replicate 5242880 true := by
    rw [List.take_replicate]
    norm_num [DefaultChunkSize]
  refine ⟨hgt, seaweedFSUpload_fst _ _ hgt, ?_, ?_⟩
  · rw [seaweedFSUpload_store _ _ hgt 0, hchunks, List.getElem?_cons_zero, htake]
  · intro h
    have hcl := congrArg List.length h
    rw [List.length_replicate, List.length_replicate] at hcl
    norm_num at hcl

/-- C1 amended: above the 10MB threshold both backends switch to the
chunked strategy over fixed 5MB chunks, but only S3 is multipart proper:
it uploads each chunk as a part with 1-based strictly sequential part
numbers and issues exactly one completion call listing every part in
ascending order with its per-part ETag, the parts concatenating to the
full payload; SeaweedFS instead uploads each chunk as an independent
file (0-based `.part<i>` names), issues no completion call, and returns
the first chunk's file id, under which only the first chunk is stored. -/
theorem multipartUpload_chunked {B E : Type} (etag : Nat → List B → E)
    (filename : String) (content : List B)
    (h : content.length > MultipartThreshold) :
    S3Upload etag filename content =
      ("uploads/" ++ goBase filename,
        .createMultipart ("uploads/" ++ goBase filename) ::
          ((chunksOf DefaultChunkSize content).enumFrom 1).map
            (fun p => .uploadPart ("uploads/" ++ goBase filename) p.1 p.2) ++
          [.completeMultipart ("uploads/" ++ goBase filename)
            (((chunksOf DefaultChunkSize content).enumFrom 1).map
              fun p => ⟨p.1, etag p.1 p.2⟩)]) ∧
    (((chunksOf DefaultChunkSize content).enumFrom 1).map
        (fun p => (⟨p.1, etag p.1 p.2⟩ : CompletedPart E))).map (·.partNumber) =
      List.range' 1 (chunksOf DefaultChunkSize content).length ∧
    (chunksOf DefaultChunkSize content).flatten = content ∧
    (∀ c ∈ (chunksOf DefaultChunkSize content).dropLast,
      c.length = DefaultChunkSize) ∧
    (∀ c ∈ chunksOf DefaultChunkSize content,
      c ≠ [] ∧ c.length ≤ DefaultChunkSize) ∧
    (S3Upload etag filename content).2.countP isCompleteEvent = 1 ∧
    (SeaweedFSUpload filename content).1 = .ok 0 ∧
    (SeaweedFSUpload filename content).2 =
      ((chunksOf DefaultChunkSize content).enumFrom 0).map
        (fun p => .upload p.1 (filename ++ ".part" ++ goNatRepr p.1) p.2) ∧
    (∀ fid, swStore (SeaweedFSUpload filename content).2 fid =
      (chunksOf DefaultChunkSize content)[fid]?) := by
  have hne : content ≠ [] := by
    intro hc
    rw [hc] at h
    simp [MultipartThreshold] at h
  have hchunks : chunksOf DefaultChunkSize content =
      content.take DefaultChunkSize ::
        chunksOf DefaultChunkSize (content.drop DefaultChunkSize) :=
    chunksOf_cons _ _ (by decide) hne
  have hs3 : S3Upload etag filename content =
      ("uploads/" ++ goBase filename,
        .createMultipart ("uploads/" ++ goBase filename) ::
          ((chunksOf DefaultChunkSize content).enumFrom 1).map
            (fun p => .uploadPart ("uploads/" ++ goBase filename) p.1 p.2) ++
          [.completeMultipart ("uploads/" ++ goBase filename)
            (((chunksOf DefaultChunkSize content).enumFrom 1).map
              fun p => ⟨p.1, etag p.1 p.2⟩)]) := by
    simp only [S3Upload, if_pos h, S3MultipartUpload]
    rw [s3Loop_eq]
  have hsw2 : (SeaweedFSUpload filename content).2 =
      ((chunksOf DefaultChunkSize content).enumFrom 0).map
        (fun p => .upload p.1 (filename ++ ".part" ++ goNatRepr p.1) p.2) := by
    simp only [SeaweedFSUpload, if_pos h, SeaweedFSMultipartUpload]
    rw [swLoop_eq]
    split
    all_goals rfl
  refine ⟨hs3, ?_, chunksOf_flatten _ (by decide) content,
    chunksOf_dropLast_length _ content, chunksOf_mem_length _ content,
    ?_, seaweedFSUpload_fst _ _ h, hsw2, seaweedFSUpload_store _ _ h⟩
  · rw [List.map_map]
    exact List.enumFrom_map_fst 1 _
  · rw [hs3]
    simp [List.countP_cons, List.countP_append, List.countP_map,
      isCompleteEvent, Function.comp]

/-- Witness for the amended C1 at a concrete 10MB+1 payload: the chunks
reassemble the payload and the S3 trace holds exactly one completion. -/
theorem multipartUpload_chunked_witness :
    (chunksOf DefaultChunkSize (List.replicate 10485761 true)).flatten =
      List.replicate 10485761 true ∧
    (S3Upload (fun n _ => n) "file.bin"
      (List.replicate 10485761 true)).2.countP isCompleteEvent = 1 := by
  have h : (List.replicate 10485761 true).length > MultipartThreshold := by
    rw [List.length_replicate]
    norm_num [MultipartThreshold]
  have hall := multipartUpload_chunked (fun n _ => n) "file.bin"
    (List.replicate 10485761 true) h
  exact ⟨hall.2.2.1, hall.2.2.2.2.2.1⟩

/-! ## C3: cache key determinism and injectivity -/

/-- Digit characters of digits below 10 are decimal digits. -/
theorem digitChar_isDigit : ∀ d, d < 10 → (digitChar d).isDigit = true := by
  decide

/-- `digitChar` is injective below 10. -/
theorem digitChar_inj :
    ∀ d1, d1 < 10 → ∀ d2, d2 < 10 → digitChar d1 = digitChar d2 → d1 = d2 := by
  decide

/-- With enough fuel, the fuelled digit extractor computes the base-10
digit list. -/
theorem decCharsAux_eq :
    ∀ (fuel n : Nat), n ≤ fuel →
      decCharsAux fuel n = (Nat.digits 10 n).map digitChar := by
  intro fuel
  induction fuel with
  | zero =>
    intro n hn
    interval_cases n
    simp [decCharsAux]
  | succ fuel ih =>
    intro n hn
    by_cases h0 : n = 0
    · simp [decCharsAux, h0]
    · have hpos : 0 < n := Nat.pos_of_ne_zero h0
      rw [decCharsAux, if_neg h0, Nat.digits_def' (by norm_num) hpos,
        List.map_cons]
      congr 1
      exact ih (n / 10) (by omega)

/-- `decChars` in terms of `Nat.digits`. -/
theorem decChars_eq (n : Nat) :
    decChars n =
      if n = 0 then ['0'] else ((Nat.digits 10 n).map digitChar).reverse := by
  by_cases h0 : n = 0
  · simp [decChars, h0]
  · rw [decChars, if_neg h0, if_neg h0, decCharsAux_eq n n le_rfl]

/-- Every character of a decimal rendering is a digit. -/
theorem decChars_all_digit (n : Nat) :
    ∀ c ∈ decChars n, c.isDigit = true := by
  rw [decChars_eq]
  split
  · intro c hc
    rw [List.mem_singleton.mp hc]
    decide
  · intro c hc
    rw [List.mem_reverse] at hc
    obtain ⟨d, hd, rfl⟩ := List.mem_map.mp hc
    exact digitChar_isDigit d (Nat.digits_lt_base (by norm_num) hd)

/-- `digitChar` applied over digit lists is injective. -/
theorem map_digitChar_inj :
    ∀ (l1 l2 : List Nat), (∀ d ∈ l1, d < 10) → (∀ d ∈ l2, d < 10) →
      l1.map digitChar = l2.map digitChar → l1 = l2 := by
  intro l1
  induction l1 with
  | nil =>
    intro l2 _ _ h
    cases l2 with
    | nil => rfl
    | cons b t => simp at h
  | cons a t1 ih =>
    intro l2 hb1 hb2 h
    cases l2 with
    | nil => simp at h
    | cons b t2 =>
      simp only [List.map_cons, List.cons.injEq] at h
      have ha : a = b :=
        digitChar_inj a (hb1 a (List.mem_cons_self _ _)) b
          (hb2 b (List.mem_cons_self _ _)) h.1
      rw [ha, ih t2 (fun d hd => hb1 d (List.mem_cons_of_mem _ hd))
        (fun d hd => hb2 d (List.mem_cons_of_mem _ hd)) h.2]

/-- Decimal renderings are injective. -/
theorem decChars_inj (m n : Nat) (h : decChars m = decChars n) : m = n := by
  rw [decChars_eq, decChars_eq] at h
  by_cases hm : m = 0 <;> by_cases hn : n = 0
  · omega
  · exfalso
    rw [if_pos hm, if_neg hn] at h
    have hmap : (Nat.digits 10 n).map digitChar = ['0'] := by
      rw [← List.reverse_inj]
      simpa using h.symm
    cases hd : Nat.digits 10 n with
    | nil => rw [hd] at hmap; simp at hmap
    | cons d t =>
      rw [hd, List.map_cons] at hmap
      have ht : t = [] := by
        have hlen := congrArg List.length hmap
        simp at hlen
        exact hlen
      have hd0 : digitChar d = '0' := (List.cons.injEq _ _ _ _ ▸ hmap).1
      have hdlt : d < 10 :=
        Nat.digits_lt_base (by norm_num) (hd ▸ List.mem_cons_self d t)
      have hdz : d = 0 := digitChar_inj d hdlt 0 (by norm_num) (by simpa using hd0)
      subst ht
      subst hdz
      have hofd := Nat.ofDigits_digits 10 n
      rw [hd] at hofd
      simp [Nat.ofDigits] at hofd
      exact hn hofd.symm
  · exfalso
    rw [if_neg hm, if_pos hn] at h
    have hmap : (Nat.digits 10 m).map digitChar = ['0'] := by
      rw [← List.reverse_inj]
      simpa using h
    cases hd : Nat.digits 10 m with
    | nil => rw [hd] at hmap; simp at hmap
    | cons d t =>
      rw [hd, List.map_cons] at hmap
      have ht : t = [] := by
        have hlen := congrArg List.length hmap
        simp at hlen
        exact hlen
      have hd0 : digitChar d = '0' := (List.cons.injEq _ _ _ _ ▸ hmap).1
      have hdlt : d < 10 :=
        Nat.digits_lt_base (by norm_num) (hd ▸ List.mem_cons_self d t)
      have hdz : d = 0 := digitChar_inj d hdlt 0 (by norm_num) (by simpa using hd0)
      subst ht
      subst hdz
      have hofd := Nat.ofDigits_digits 10 m
      rw [hd] at hofd
      simp [Nat.ofDigits] at hofd
      exact hm hofd.symm
  · rw [if_neg hm, if_neg hn, List.reverse_inj] at h
    have hdig : Nat.digits 10 m = Nat.digits 10 n :=
      map_digitChar_inj _ _
        (fun d hd => Nat.digits_lt_base (by norm_num) hd)
        (fun d hd => Nat.digits_lt_base (by norm_num) hd) h
    have := congrArg (Nat.ofDigits 10) hdig
    rwa [Nat.ofDigits_digits, Nat.ofDigits_digits] at this

/-- Cutting a delimited segment off two equal lists: if both lists start
with a run satisfying `p` followed by a delimiter violating `p`, the
runs, delimiters and tails agree. -/
theorem seg_cancel {α : Type} (p : α → Bool) :
    ∀ (l1 l2 : List α) (b1 b2 : α) (t1 t2 : List α),
      (∀ a ∈ l1, p a = true) → (∀ a ∈ l2, p a = true) →
      p b1 = false → p b2 = false →
      l1 ++ b1 :: t1 = l2 ++ b2 :: t2 → l1 = l2 ∧ b1 = b2 ∧ t1 = t2 := by
  intro l1
  induction l1 with
  | nil =>
    intro l2 b1 b2 t1 t2 h1 h2 hb1 hb2 heq
    cases l2 with
    | nil =>
      simp only [List.nil_append] at heq
      exact ⟨rfl, (List.cons.injEq _ _ _ _ ▸ heq).1, (List.cons.injEq _ _ _ _ ▸ heq).2⟩
    | cons a l2 =>
      simp only [List.nil_append, List.cons_append, List.cons.injEq] at heq
      rw [heq.1] at hb1
      rw [h2 a (List.mem_cons_self _ _)] at hb1
      exact absurd hb1 (by simp)
  | cons a l1 ih =>
    intro l2 b1 b2 t1 t2 h1 h2 hb1 hb2 heq
    cases l2 with
    | nil =>
      simp only [List.nil_append, List.cons_append, List.cons.injEq] at heq
      rw [← heq.1] at hb2
      rw [h1 a (List.mem_cons_self _ _)] at hb2
      exact absurd hb2 (by simp)
    | cons a2 l2 =>
      simp only [List.cons_append, List.cons.injEq] at heq
      obtain ⟨hseg, hb, ht⟩ := ih l2 b1 b2 t1 t2
        (fun x hx => h1 x (List.mem_cons_of_mem _ hx))
        (fun x hx => h2 x (List.mem_cons_of_mem _ hx)) hb1 hb2 heq.2
      exact ⟨by rw [heq.1, hseg], hb, ht⟩

/-- Nonnegative Go ints render without the sign. -/
theorem goIntChars_nonneg (i : Int) (h : 0 ≤ i) :
    goIntChars i = decChars i.toNat := by
  simp [goIntChars, not_lt.mpr h]

/-- Characters of a nonnegative rendering are digits. -/
theorem goIntChars_all_digit (i : Int) (h : 0 ≤ i) :
    ∀ c ∈ goIntChars i, c.isDigit = true := by
  rw [goIntChars_nonneg i h]
  exact decChars_all_digit _

/-- Renderings of nonnegative Go ints are injective. -/
theorem goIntChars_inj (i j : Int) (hi : 0 ≤ i) (hj : 0 ≤ j)
    (h : goIntChars i = goIntChars j) : i = j := by
  rw [goIntChars_nonneg i hi, goIntChars_nonneg j hj] at h
  have := decChars_inj _ _ h
  omega

set_option maxHeartbeats 1000000 in
/-- What passing `Validate` guarantees about the key fields: nonnegative
numbers and membership of fit/crop/format in their closed enumerations. -/
theorem validate_ok_bounds (o : TransformationOptions)
    (h : o.Validate = .ok ()) :
    0 ≤ o.width ∧ 0 ≤ o.height ∧ 0 ≤ o.quality ∧
    (o.fit = "" ∨ o.fit = "contain" ∨ o.fit = "cover" ∨ o.fit = "fill") ∧
    (o.crop = "" ∨ o.crop = "center" ∨ o.crop = "top" ∨ o.crop = "bottom" ∨
      o.crop = "left" ∨ o.crop = "right") ∧
    (o.format = "" ∨ o.format = "jpeg" ∨ o.format = "jpg" ∨ o.format = "png" ∨
      o.format = "webp") := by
  simp only [TransformationOptions.Validate] at h
  by_cases c1 : o.width < 0 ∨ o.height < 0
  · simp [c1] at h
  by_cases c2 : o.width > (16384 : Int) ∨ o.height > (16384 : Int)
  · simp [c1, c2] at h
  by_cases c3 : o.fit ≠ "" ∧ o.fit ≠ "contain" ∧ o.fit ≠ "cover" ∧ o.fit ≠ "fill"
  · simp [c1, c2, c3] at h
  by_cases c4 : o.crop ≠ "" ∧ o.crop ≠ "center" ∧ o.crop ≠ "top" ∧
      o.crop ≠ "bottom" ∧ o.crop ≠ "left" ∧ o.crop ≠ "right"
  · simp [c1, c2, c3, c4] at h
  by_cases c5 : o.quality < 0 ∨ o.quality > 100
  · simp [c1, c2, c3, c4, c5] at h
  by_cases c6 : o.format ≠ "" ∧ o.format ≠ "jpeg" ∧ o.format ≠ "jpg" ∧
      o.format ≠ "png" ∧ o.format ≠ "webp"
  · simp [c1, c2, c3, c4, c5, c6] at h
  push_neg at c1 c5
  exact ⟨c1.1, c1.2, c5.1, by tauto, by tauto, by tauto⟩

/-- Regrouping a marker character into the preceding segment. -/
theorem append_cons_cons {α : Type} (l : List α) (x y : α) (t : List α) :
    l ++ x :: y :: t = (l ++ [x]) ++ y :: t := by
  simp

/-- Characters of a validated fit value are never underscores. -/
theorem enum_fit_no_underscore (o : TransformationOptions)
    (h : o.fit = "" ∨ o.fit = "contain" ∨ o.fit = "cover" ∨ o.fit = "fill") :
    ∀ c ∈ o.fit.data, (c != '_') = true := by
  rcases h with h | h | h | h <;> rw [h] <;> decide

/-- Characters of a validated crop value are never underscores. -/
theorem enum_crop_no_underscore (o : TransformationOptions)
    (h : o.crop = "" ∨ o.crop = "center" ∨ o.crop = "top" ∨ o.crop = "bottom" ∨
      o.crop = "left" ∨ o.crop = "right") :
    ∀ c ∈ o.crop.data, (c != '_') = true := by
  rcases h with h | h | h | h | h | h <;> rw [h] <;> decide

/-- Characters of a validated format value are never underscores. -/
theorem enum_format_no_underscore (o : TransformationOptions)
    (h : o.format = "" ∨ o.format = "jpeg" ∨ o.format = "jpg" ∨
      o.format = "png" ∨ o.format = "webp") :
    ∀ c ∈ o.format.data, (c != '_') = true := by
  rcases h with h | h | h | h | h <;> rw [h] <;> decide

/-- Transport of an underscore-free condition to the reversed list. -/
theorem no_underscore_rev (l : List Char)
    (hs : ∀ c ∈ l, (c != '_') = true) :
    ∀ c ∈ l.reverse, (c != '_') = true :=
  fun c hc => hs c (List.mem_reverse.mp hc)

/-- Underscore-freeness of a reversed segment with a marker appended. -/
theorem no_underscore_rev_marker (l : List Char) (m : Char)
    (hs : ∀ c ∈ l, (c != '_') = true) (hm : (m != '_') = true) :
    ∀ c ∈ l.reverse ++ [m], (c != '_') = true := by
  intro c hc
  rcases List.mem_append.mp hc with hc | hc
  · exact hs c (List.mem_reverse.mp hc)
  · rw [List.mem_singleton.mp hc]
    exact hm

/-- Digit-freeness transported to the reversed rendering. -/
theorem digits_rev_sat (i : Int) (h : 0 ≤ i) :
    ∀ c ∈ (goIntChars i).reverse, c.isDigit = true :=
  fun c hc => goIntChars_all_digit i h c (List.mem_reverse.mp hc)

/-- The reversed character sequence of a cache key, segment by segment:
format, quality, crop, fit, height, width, media id, separated by the
sprintf markers. -/
theorem mkCacheKey_data_rev (id : String) (o : TransformationOptions) :
    (mkCacheKey id o).data.reverse =
      o.format.data.reverse ++ '_' ::
        ((goIntChars o.quality).reverse ++ 'q' :: '_' ::
          (o.crop.data.reverse ++ 'c' :: '_' ::
            (o.fit.data.reverse ++ 'f' :: '_' ::
              ((goIntChars o.height).reverse ++ 'h' :: '_' ::
                ((goIntChars o.width).reverse ++ 'w' :: '_' ::
                  id.data.reverse))))) := by
  simp [mkCacheKey, goIntRepr, String.data_append, List.reverse_append,
    show ("_w" : String).data = ['_', 'w'] from rfl,
    show ("_h" : String).data = ['_', 'h'] from rfl,
    show ("_f" : String).data = ['_', 'f'] from rfl,
    show ("_c" : String).data = ['_', 'c'] from rfl,
    show ("_q" : String).data = ['_', 'q'] from rfl,
    show ("_" : String).data = ['_'] from rfl]

/-- C3: for validated transform options the cache key is a deterministic
function of `(sourceRef, width, height, fit, crop, quality, format)` —
identical fields give identical keys — and injective in those fields:
two requests differing in the source ref or any of the six spec fields
produce different keys, so no two distinct transform outcomes share a
key. -/
theorem cacheKey_deterministic_injective (id1 id2 : String)
    (o1 o2 : TransformationOptions) (h1 : o1.Validate = .ok ())
    (h2 : o2.Validate = .ok ()) :
    mkCacheKey id1 o1 = mkCacheKey id2 o2 ↔
      (id1 = id2 ∧ o1.width = o2.width ∧ o1.height = o2.height ∧
        o1.fit = o2.fit ∧ o1.crop = o2.crop ∧ o1.quality = o2.quality ∧
        o1.format = o2.format) := by
  obtain ⟨hw1, hh1, hq1, hfit1, hcrop1, hfmt1⟩ := validate_ok_bounds o1 h1
  obtain ⟨hw2, hh2, hq2, hfit2, hcrop2, hfmt2⟩ := validate_ok_bounds o2 h2
  constructor
  · intro heq
    have hd : (mkCacheKey id1 o1).data = (mkCacheKey id2 o2).data := by
      rw [heq]
    have hrev := congrArg List.reverse hd
    rw [mkCacheKey_data_rev, mkCacheKey_data_rev] at hrev
    obtain ⟨hseg1, -, hrest1⟩ := seg_cancel (fun c => c != '_') _ _ '_' '_' _ _
      (no_underscore_rev _ (enum_format_no_underscore o1 hfmt1))
      (no_underscore_rev _ (enum_format_no_underscore o2 hfmt2))
      (by decide) (by decide) hrev
    have hfmt : o1.format = o2.format :=
      String.ext (List.reverse_inj.mp hseg1)
    obtain ⟨hseg2, -, hrest2⟩ := seg_cancel Char.isDigit _ _ 'q' 'q' _ _
      (digits_rev_sat o1.quality hq1) (digits_rev_sat o2.quality hq2)
      (by decide) (by decide) hrest1
    have hqual : o1.quality = o2.quality :=
      goIntChars_inj _ _ hq1 hq2 (List.reverse_inj.mp hseg2)
    have hrest2a : o1.crop.data.reverse ++ 'c' :: '_' ::
        (o1.fit.data.reverse ++ 'f' :: '_' ::
          ((goIntChars o1.height).reverse ++ 'h' :: '_' ::
            ((goIntChars o1.width).reverse ++ 'w' :: '_' ::
              id1.data.reverse))) =
        o2.crop.data.reverse ++ 'c' :: '_' ::
        (o2.fit.data.reverse ++ 'f' :: '_' ::
          ((goIntChars o2.height).reverse ++ 'h' :: '_' ::
            ((goIntChars o2.width).reverse ++ 'w' :: '_' ::
              id2.data.reverse))) := by
      have := hrest2
      simp only [List.cons.injEq, true_and] at this
      exact this
    rw [append_cons_cons o1.crop.data.reverse 'c' '_',
      append_cons_cons o2.crop.data.reverse 'c' '_'] at hrest2a
    obtain ⟨hseg3, -, hrest3⟩ := seg_cancel (fun c => c != '_') _ _ '_' '_' _ _
      (no_underscore_rev_marker _ 'c'
        (enum_crop_no_underscore o1 hcrop1) (by decide))
      (no_underscore_rev_marker _ 'c'
        (enum_crop_no_underscore o2 hcrop2) (by decide))
      (by decide) (by decide) hrest2a
    have hcrop : o1.crop = o2.crop :=
      String.ext (List.reverse_inj.mp (List.append_cancel_right hseg3))
    rw [append_cons_cons o1.fit.data.reverse 'f' '_',
      append_cons_cons o2.fit.data.reverse 'f' '_'] at hrest3
    obtain ⟨hseg4, -, hrest4⟩ := seg_cancel (fun c => c != '_') _ _ '_' '_' _ _
      (no_underscore_rev_marker _ 'f'
        (enum_fit_no_underscore o1 hfit1) (by decide))
      (no_underscore_rev_marker _ 'f'
        (enum_fit_no_underscore o2 hfit2) (by decide))
      (by decide) (by decide) hrest3
    have hfit : o1.fit = o2.fit :=
      String.ext (List.reverse_inj.mp (List.append_cancel_right hseg4))
    obtain ⟨hseg5, -, hrest5⟩ := seg_cancel Char.isDigit _ _ 'h' 'h' _ _
      (digits_rev_sat o1.height hh1) (digits_rev_sat o2.height hh2)
      (by decide) (by decide) hrest4
    have hheight : o1.height = o2.height :=
      goIntChars_inj _ _ hh1 hh2 (List.reverse_inj.mp hseg5)
    have hrest5a : (goIntChars o1.width).reverse ++ 'w' :: '_' ::
        id1.data.reverse =
        (goIntChars o2.width).reverse ++ 'w' :: '_' :: id2.data.reverse := by
      have := hrest5
      simp only [List.cons.injEq, true_and] at this
      exact this
    obtain ⟨hseg6, -, hrest6⟩ := seg_cancel Char.isDigit _ _ 'w' 'w' _ _
      (digits_rev_sat o1.width hw1) (digits_rev_sat o2.width hw2)
      (by decide) (by decide) hrest5a
    have hwidth : o1.width = o2.width :=
      goIntChars_inj _ _ hw1 hw2 (List.reverse_inj.mp hseg6)
    have hid : id1 = id2 := by
      have := hrest6
      simp only [List.cons.injEq, true_and] at this
      exact String.ext (List.reverse_inj.mp this)
    exact ⟨hid, hwidth, hheight, hfit, hcrop, hqual, hfmt⟩
  · rintro ⟨rfl, hw, hh, hf, hc, hq, hm⟩
    simp only [mkCacheKey]
    rw [hw, hh, hf, hc, hq, hm]

/-- Witness for C3 at concrete requests: the thumbnail-like spec and the
avatar-like spec on the same media id resolve to different keys, and the
iff pins exactly which field tuples collide. -/
theorem cacheKey_deterministic_injective_witness :
    mkCacheKey "m9"
        { width := 150, height := 150, fit := "cover", quality := 80 } =
      mkCacheKey "m9"
        { width := 300, height := 300, fit := "cover", quality := 85 } ↔
      (("m9" : String) = "m9" ∧ (150 : Int) = 300 ∧ (150 : Int) = 300 ∧
        ("cover" : String) = "cover" ∧ ("" : String) = "" ∧
        (80 : Int) = 85 ∧ ("" : String) = "") :=
  cacheKey_deterministic_injective "m9" "m9"
    { width := 150, height := 150, fit := "cover", quality := 80 }
    { width := 300, height := 300, fit := "cover", quality := 85 } rfl rfl
